import Mathlib

/-!
Verification of the guard-scheduling system's allocation engine and
attendance check-in verification against its natural-language specification.

The embedding models, faithfully to `backend/guards/allocation.py`,
`backend/guards/views.py` (AttendanceView.post, AllocateView.post) and
`backend/guards/serializers.py` (AttendanceCreateSerializer):

* naive local datetimes as minutes since an epoch (`Int`); a calendar date is
  the day number `d`, and `datetime.combine(date, time)` is `d * 1440 + t`
  with `t` the minutes-since-midnight value of the time-of-day field;
* the shift table (the only table the algorithms write) as a `List Shift`;
* Python floats as `ℚ` (the scoring weights 5.0 / 0.5 / 1.0 / 0.8 and all
  score arithmetic are exact in this range);
* Django querysets as list filters; `order_by` as a stable insertion sort.
-/

namespace GuardSched

/-- Skill tags are stored as comma-separated strings; `_split_tags` in
`allocation.py` strips, lowercases and drops empty entries. -/
def split_tags (s : String) : List String :=
  if s = "" then []
  else ((s.splitOn ",").map (fun t => t.trim.toLower)).filter (fun t => t ≠ "")

/-- One row of the `Shift` table (`models.py`): premise FK, date, start/end
times (minutes in a day), required skills (comma-separated), optional
assigned guard and optional assignment timestamp. -/
structure Shift where
  id : Nat
  premiseId : Nat
  date : Int
  startTime : Int
  endTime : Int
  requiredSkills : String
  assignedGuard : Option Nat
  assignedAt : Option Int
  deriving DecidableEq

/-- `GuardProfile` (`models.py`): skills, experience and the per-guard
`max_consecutive_days` override field (present in the model, default 6). -/
structure GuardProfile where
  skills : String
  experienceYears : Int
  maxConsecutiveDays : Int
  deriving DecidableEq

/-- A `CustomUser` row together with its optional profile. -/
structure Guard where
  id : Nat
  isGuard : Bool
  isStaff : Bool
  profile : Option GuardProfile
  deriving DecidableEq

/-- A `Premise` row: numeric pk and stable external UUID (a string). -/
structure Premise where
  id : Nat
  uuid : String
  deriving DecidableEq

/-- `profile.skills if profile else ""`. -/
def profileSkills (g : Guard) : String :=
  match g.profile with
  | some p => p.skills
  | none => ""

/-- `profile.experience_years if profile else 0`. -/
def profileExp (g : Guard) : Int :=
  match g.profile with
  | some p => p.experienceYears
  | none => 0

/-- Global tunable `MAX_CONSECUTIVE_DAYS` in `allocation.py`. -/
def MAX_CONSECUTIVE_DAYS : Nat := 6

/-- Scoring weight `WEIGHT_SKILL_MATCH = 5.0`. -/
def WEIGHT_SKILL_MATCH : ℚ := 5

/-- Scoring weight `WEIGHT_EXPERIENCE = 0.5`. -/
def WEIGHT_EXPERIENCE : ℚ := 1 / 2

/-- Scoring weight `WEIGHT_CONSECUTIVE_PENALTY = 1.0`. -/
def WEIGHT_CONSECUTIVE_PENALTY : ℚ := 1

/-- Scoring weight `WEIGHT_FAIRNESS_PENALTY = 0.8`. -/
def WEIGHT_FAIRNESS_PENALTY : ℚ := 4 / 5

/-- `Shift.objects.filter(date=check_date, assigned_guard=guard).exists()`. -/
def hasAssignmentOn (db : List Shift) (gid : Nat) (d : Int) : Bool :=
  db.any (fun s => s.date = d && s.assignedGuard = some gid)

/-- The bounded backward walk of `_consecutive_days_before`: starting at
`ref_date - 1`, count consecutive days with an assignment, stopping as soon
as the count reaches `MAX_CONSECUTIVE_DAYS`.  `fuel` bounds the recursion;
the walk increments `days` on every recursive step, so fuel
`MAX_CONSECUTIVE_DAYS` is never exhausted before the cap stops the loop. -/
def consecGo (db : List Shift) (gid : Nat) : Nat → Int → Nat → Nat
  | 0, _, days => days
  | fuel + 1, checkDate, days =>
    if hasAssignmentOn db gid checkDate then
      let days' := days + 1
      if MAX_CONSECUTIVE_DAYS ≤ days' then days'
      else consecGo db gid fuel (checkDate - 1) days'
    else days

/-- `_consecutive_days_before(guard, ref_date)` from `allocation.py`. -/
def consecutive_days_before (db : List Shift) (gid : Nat) (refDate : Int) : Nat :=
  consecGo db gid MAX_CONSECUTIVE_DAYS (refDate - 1) 0

/-- `_recent_assignments_count(guard, ref_date)`: assignments in the 7-day
window `[ref_date - 6, ref_date]`. -/
def recent_assignments_count (db : List Shift) (gid : Nat) (refDate : Int) : Nat :=
  (db.filter (fun s =>
    refDate - (7 - 1) ≤ s.date && s.date ≤ refDate && s.assignedGuard = some gid)).length

/-- Guard ids assigned to some other shift on the same date
(`same_day_shifts.exclude(assigned_guard__isnull=True).values_list(...)`). -/
def assignedIdsOn (db : List Shift) (d : Int) (excludeId : Nat) : List Nat :=
  (db.filter (fun t => t.date = d && t.id ≠ excludeId && t.assignedGuard ≠ none)).filterMap
    (fun t => t.assignedGuard)

/-- `find_candidates(shift)` from `allocation.py`: guards with
`is_guard=True`, not assigned to another shift on the shift's date, and with
a consecutive-day streak strictly below the global `MAX_CONSECUTIVE_DAYS`. -/
def find_candidates (db : List Shift) (users : List Guard) (s : Shift) : List Guard :=
  let guards := users.filter (fun g => g.isGuard)
  let ids := assignedIdsOn db s.date s.id
  let guards := guards.filter (fun g => decide (g.id ∉ ids))
  guards.filter (fun g => decide (consecutive_days_before db g.id s.date < MAX_CONSECUTIVE_DAYS))

/-- The per-term breakdown dict returned by `score_guard_for_shift`. -/
structure ScoreBreakdown where
  skill_frac : ℚ
  skill_score : ℚ
  experience_years : Int
  experience_score : ℚ
  consecutive_before : Nat
  consecutive_penalty : ℚ
  fairness_recent : Nat
  fairness_penalty : ℚ
  total : ℚ
  deriving DecidableEq

/-- `score_guard_for_shift(guard, shift)` from `allocation.py`: returns
`(score, breakdown)`. -/
def score_guard_for_shift (db : List Shift) (guard : Guard) (shift : Shift) :
    ℚ × ScoreBreakdown :=
  let guard_skills := split_tags (profileSkills guard)
  let shift_skills := split_tags shift.requiredSkills
  let skill_frac : ℚ :=
    if shift_skills = [] then 1
    else ((shift_skills.countP (fun t => decide (t ∈ guard_skills)) : ℚ) /
      (shift_skills.length : ℚ))
  let skill_score := skill_frac * WEIGHT_SKILL_MATCH
  let experience_years := profileExp guard
  let experience_score := ((min experience_years 20 : Int) : ℚ) * WEIGHT_EXPERIENCE
  let consecutive_before := consecutive_days_before db guard.id shift.date
  let consecutive_penalty := (consecutive_before : ℚ) * WEIGHT_CONSECUTIVE_PENALTY
  let fairness_recent := recent_assignments_count db guard.id shift.date
  let fairness_penalty := (fairness_recent : ℚ) * WEIGHT_FAIRNESS_PENALTY
  let total := skill_score + experience_score - consecutive_penalty - fairness_penalty
  (total,
    { skill_frac := skill_frac
      skill_score := skill_score
      experience_years := experience_years
      experience_score := experience_score
      consecutive_before := consecutive_before
      consecutive_penalty := consecutive_penalty
      fairness_recent := fairness_recent
      fairness_penalty := fairness_penalty
      total := total })

/-- Stable insert for the stable insertion sort modelling `order_by`:
`lt` is the strict key comparison; an element inserted among equal keys goes
first, preserving the original relative order. -/
def insertBy (lt : Shift → Shift → Bool) (x : Shift) : List Shift → List Shift
  | [] => [x]
  | y :: ys => if lt y x then y :: insertBy lt x ys else x :: y :: ys

/-- Stable insertion sort by a strict key comparison. -/
def sortBy (lt : Shift → Shift → Bool) : List Shift → List Shift
  | [] => []
  | x :: xs => insertBy lt x (sortBy lt xs)

/-- `order_by("start_time")`. -/
def sortByStart (l : List Shift) : List Shift :=
  sortBy (fun a b => a.startTime < b.startTime) l

/-- `order_by("date", "start_time")`. -/
def sortByDateStart (l : List Shift) : List Shift :=
  sortBy (fun a b => a.date < b.date || (a.date = b.date && a.startTime < b.startTime)) l

/-- `scored.sort(key=..., reverse=True)` followed by `scored[0]`: Python's
sort is stable, so the first element of the descending-sorted list is the
first element attaining the maximal score. -/
def pickBest : List (ℚ × Guard × ScoreBreakdown) → Option (ℚ × Guard × ScoreBreakdown)
  | [] => none
  | x :: xs => some (xs.foldl (fun acc y => if acc.1 < y.1 then y else acc) x)

/-- `shift.assigned_guard = best_guard; shift.save(update_fields=["assigned_guard"])`:
only the `assigned_guard` column is written; `assigned_at` is untouched. -/
def assignShift (db : List Shift) (sid gid : Nat) : List Shift :=
  db.map (fun t => if t.id = sid then { t with assignedGuard := some gid } else t)

/-- The per-shift loop body of `run_allocation_for_day`, iterating the
snapshot list of the day's shifts while threading the shift table: skip an
already-assigned shift; score the candidates; if the top candidate's skill
fraction is below the acceptance threshold `0.0` leave the shift unassigned;
otherwise commit the top candidate. -/
def run_allocation_go (users : List Guard) : List Shift → List Shift → List Shift
  | [], db => db
  | s :: rest, db =>
    if s.assignedGuard.isSome then run_allocation_go users rest db
    else
      match pickBest ((find_candidates db users s).map (fun g =>
        ((score_guard_for_shift db g s).1, g, (score_guard_for_shift db g s).2))) with
      | none => run_allocation_go users rest db
      | some best =>
        if best.2.2.skill_frac < (0 : ℚ) then run_allocation_go users rest db
        else run_allocation_go users rest (assignShift db s.id best.2.1.id)

/-- `run_allocation_for_day(run_date)` from `allocation.py`, restricted to
its effect on the shift table: iterate the day's shifts in start-time order,
skip assigned ones, and commit the top-scored candidate of each remaining
shift (writing only `assigned_guard`). -/
def run_allocation_for_day (db : List Shift) (users : List Guard) (runDate : Int) :
    List Shift :=
  run_allocation_go users (sortByStart (db.filter (fun s => s.date = runDate))) db

/-- The number of shifts on date `d` assigned to guard `gid`. -/
def dayCount (db : List Shift) (d : Int) (gid : Nat) : Nat :=
  db.countP (fun t => t.date = d && t.assignedGuard = some gid)

/-- The commit of `AllocateView.post` (`views.py` 473–475):
`fresh.assigned_guard = gp.user; fresh.assigned_at = timezone.now();
fresh.save(update_fields=["assigned_guard", "assigned_at"])`. -/
def alloc_endpoint_commit (s : Shift) (gid : Nat) (now : Int) : Shift :=
  { s with assignedGuard := some gid, assignedAt := some now }

/-- A parsed scan payload.  The view's gate reads keys `uuid` and `id`; the
serializer's premise resolution additionally accepts the aliases
`premise_uuid`/`u` and `premise_id`/`p`. -/
structure QRPayload where
  uuid : Option String
  premise_uuid : Option String
  u : Option String
  id : Option Int
  premise_id : Option Int
  p : Option Int
  deriving DecidableEq

/-- Python's `a or b or c` over optional strings, as used at the truthiness
test site: the first present non-empty string, if any. -/
def firstTruthyStr : List (Option String) → Option String
  | [] => none
  | some s :: xs => if s ≠ "" then some s else firstTruthyStr xs
  | none :: xs => firstTruthyStr xs

/-- Python's `a or b or c` over optional ints at a truthiness test site:
the first present non-zero int, if any. -/
def firstTruthyInt : List (Option Int) → Option Int
  | [] => none
  | some n :: xs => if n ≠ 0 then some n else firstTruthyInt xs
  | none :: xs => firstTruthyInt xs

/-- `qr.get("uuid") or qr.get("premise_uuid") or qr.get("u")` (serializer,
line 278), as observed by the following truthiness test. -/
def effUuid (q : QRPayload) : Option String :=
  firstTruthyStr [q.uuid, q.premise_uuid, q.u]

/-- `qr.get("id") or qr.get("premise_id") or qr.get("p")` (serializer,
line 279), as observed by the following truthiness test. -/
def effId (q : QRPayload) : Option Int :=
  firstTruthyInt [q.id, q.premise_id, q.p]

/-- Outcome of the serializer's premise lookup
(`AttendanceCreateSerializer.validate`, lines 276–291). -/
inductive PremResolve
  | byUuid (pr : Premise)
  | byId (pr : Premise)
  | errUuidNotFound
  | errIdNotFound
  | errMissingRef
  deriving DecidableEq

/-- The serializer's premise resolution: a truthy `uuid` (or alias) is looked
up first; only when none is present is a truthy numeric id used. -/
def resolvePremise (premises : List Premise) (q : QRPayload) : PremResolve :=
  match effUuid q with
  | some uu =>
    match premises.find? (fun pr => pr.uuid = uu) with
    | some pr => .byUuid pr
    | none => .errUuidNotFound
  | none =>
    match effId q with
    | some i =>
      match premises.find? (fun pr => (pr.id : Int) = i) with
      | some pr => .byId pr
      | none => .errIdNotFound
    | none => .errMissingRef

/-- Outcome of the view's payload-versus-premise gate
(`AttendanceView.post`, lines 608–624). -/
inductive GateResult
  | ok
  | mismatch
  | missingRef
  deriving DecidableEq

/-- The view's payload gate: if the payload has a `uuid` key (`is not None`)
only the uuid is compared to the premise's uuid; otherwise a present `id` is
compared to the premise's pk; otherwise the payload is rejected. -/
def payloadGate (q : QRPayload) (prem : Premise) : GateResult :=
  match q.uuid with
  | some uu => if prem.uuid ≠ uu then .mismatch else .ok
  | none =>
    match q.id with
    | some i => if i ≠ (prem.id : Int) then .mismatch else .ok
    | none => .missingRef

/-- `datetime.combine(shift.date, shift.start_time)` in the view's window
check (no overnight adjustment there). -/
def viewStart (s : Shift) : Int := s.date * 1440 + s.startTime

/-- `datetime.combine(shift.date, shift.end_time)` in the view's window
check (no overnight adjustment there). -/
def viewEnd (s : Shift) : Int := s.date * 1440 + s.endTime

/-- `AttendanceRecord.status` choices. -/
inductive AttStatus
  | ON_TIME
  | LATE
  | EARLY
  | INVALID_QR
  | MISSING
  deriving DecidableEq

/-- An `AttendanceRecord` row as written by the check-in path. -/
structure AttendanceRecord where
  guard : Option Nat
  shiftId : Nat
  checkInTime : Int
  status : AttStatus
  deriving DecidableEq

/-- All inputs of one `AttendanceView.post` check-in after the serializer
has resolved the shift: the resolved shift and its premise, the parsed
payload, the caller, the `force` flag, the window margins and config flags,
the two `timezone.now()` readings (`now` at the gate, `now2` at status
finalization), the serializer's `_client_timestamp_used`, and the shift
table. -/
structure CheckInArgs where
  shift : Shift
  premise : Premise
  payload : QRPayload
  user : Guard
  force : Bool
  early : Int
  late : Int
  staffCanForce : Bool
  minExp : Int
  now : Int
  now2 : Int
  clientTs : Int
  db : List Shift
  deriving DecidableEq

/-- Outcome of one check-in request: an error response, or the created
record together with the auto-assignment flag, the updated shift table and
the updated attendance table. -/
inductive CheckInOutcome
  | payloadMismatch
  | payloadMissingRef
  | outsideWindow
  | notGuard
  | ok (r : AttendanceRecord) (autoAssigned : Bool)
       (db : List Shift) (records : List AttendanceRecord)
  deriving DecidableEq

/-- The auto-assignment step of `AttendanceView.post` (lines 654–681):
if the shift is unassigned and the caller is a guard whose skills contain
every required tag and whose experience passes the configured minimum, the
shift's `assigned_guard` is written (only that column). -/
def autoAssign (a : CheckInArgs) : List Shift × Bool :=
  if a.shift.assignedGuard = none ∧ a.user.isGuard then
    let required := split_tags a.shift.requiredSkills
    let gskills := split_tags (profileSkills a.user)
    let skillsOk := required.all (fun t => decide (t ∈ gskills))
    let expOk : Bool :=
      if a.user.profile.isSome ∧ a.minExp ≠ 0 then decide (a.minExp ≤ profileExp a.user)
      else true
    if skillsOk ∧ expOk then (assignShift a.db a.shift.id a.user.id, true)
    else (a.db, false)
  else (a.db, false)

/-- The record created by `serializer.save(guard=user)` followed by the
view's deferred status write: `check_in_time` is the client timestamp,
`status` is `ON_TIME` iff the post-save `timezone.now()` reading is at or
before the (unadjusted) end instant. -/
def newRecord (a : CheckInArgs) : AttendanceRecord :=
  { guard := some a.user.id
    shiftId := a.shift.id
    checkInTime := a.clientTs
    status := if a.now2 ≤ viewEnd a.shift then AttStatus.ON_TIME else AttStatus.LATE }

/-- `AttendanceView.post` from `views.py` (lines 581–699), after the
serializer has resolved the shift: payload gate, window gate with the staff
force bypass, guard-only gate with the same bypass, optional
auto-assignment, record creation (`check_in_time` is the client timestamp)
and deferred status finalization against the unadjusted end instant. -/
def checkIn (a : CheckInArgs) (records : List AttendanceRecord) : CheckInOutcome :=
  match payloadGate a.payload a.premise with
  | .mismatch => .payloadMismatch
  | .missingRef => .payloadMissingRef
  | .ok =>
    if ¬(viewStart a.shift - a.early ≤ a.now ∧ a.now ≤ viewEnd a.shift + a.late)
        ∧ ¬((a.staffCanForce && a.user.isStaff && a.force) = true) then
      .outsideWindow
    else if ¬(a.user.isGuard = true)
        ∧ ¬((a.staffCanForce && a.user.isStaff && a.force) = true) then
      .notGuard
    else
      .ok (newRecord a) (autoAssign a).2 (autoAssign a).1 (records ++ [newRecord a])

/-- The allowed check-in window computed inside
`AttendanceCreateSerializer._resolve_shift_from_premise` (lines 186–197):
with the overnight adjustment `if end_dt <= start_dt: end_dt += 1 day`,
then `[start - early, end + late]`. -/
def resolverWindow (s : Shift) (early late : Int) : Int × Int :=
  let startDt := s.date * 1440 + s.startTime
  let endDt0 := s.date * 1440 + s.endTime
  let endDt := if endDt0 ≤ startDt then endDt0 + 1440 else endDt0
  (startDt - early, endDt + late)

/-- Membership of `now` in the resolver's allowed window. -/
def windowContains (s : Shift) (now early late : Int) : Bool :=
  decide ((resolverWindow s early late).1 ≤ now ∧ now ≤ (resolverWindow s early late).2)

/-- The shift's start instant, `allowed_start + timedelta(minutes=early)` as
reconstructed in the resolver's fallback loop (line 210). -/
def startInstant (s : Shift) : Int := s.date * 1440 + s.startTime

/-- `abs((start_dt - now).total_seconds())`, in minutes. -/
def startDiff (s : Shift) (now : Int) : Int := |startInstant s - now|

/-- The resolver's traversal order: for each date offset `-tol .. tol`
(in that order), the premise's shifts of that date in `(date, start_time)`
order — flattening the two nested loops of
`_resolve_shift_from_premise` (lines 183–203). -/
def searchList (db : List Shift) (premId : Nat) (localDate : Int) (tol : Nat) :
    List Shift :=
  let sorted := sortByDateStart (db.filter (fun s => s.premiseId = premId))
  ((List.range (2 * tol + 1)).map (fun i => localDate + (i : Int) - (tol : Int))).flatMap
    (fun d => sorted.filter (fun s => s.date = d))

/-- The fallback loop's running best: first candidate wins ties, a strictly
smaller start-distance replaces the best (lines 205–215). -/
def fallbackGo (now : Int) : List Shift → Shift → Shift
  | [], b => b
  | s :: rest, b =>
    if startDiff s now < startDiff b now then fallbackGo now rest s
    else fallbackGo now rest b

/-- The resolver's fallback: the candidate whose start instant is nearest to
`now`, the earliest-visited one on ties. -/
def fallbackNearest (now : Int) : List Shift → Option Shift
  | [] => none
  | s :: rest => some (fallbackGo now rest s)

/-- `AttendanceCreateSerializer._resolve_shift_from_premise`: the first
candidate (in traversal order) whose allowed window contains `now`; if none,
the fallback by start-instant proximity over all candidates.  `local_date`
is `now`'s calendar date. -/
def resolve_shift_from_premise (db : List Shift) (prem : Premise)
    (now early late : Int) (tol : Nat) : Option Shift :=
  match (searchList db prem.id (Int.fdiv now 1440) tol).find?
      (fun s => windowContains s now early late) with
  | some s => some s
  | none => fallbackNearest now (searchList db prem.id (Int.fdiv now 1440) tol)

/-! Concrete example data shared by the theorems below. -/

/-- An example premise with pk 1 and uuid "ABC". -/
def exPremise : Premise := ⟨1, "ABC"⟩

/-- A scan payload carrying only the matching uuid. -/
def exPayloadU : QRPayload := ⟨some "ABC", none, none, none, none, none⟩

/-- A plain guard caller (not staff, no profile). -/
def exGuardUser : Guard := ⟨9, true, false, none⟩

/-- A staff guard caller. -/
def exStaffUser : Guard := ⟨9, true, true, none⟩

/-- A day shift 08:00–16:00 on day 0, already assigned to guard 5. -/
def dayShift : Shift := ⟨1, 1, 0, 480, 960, "", some 5, none⟩

/-- The overnight shift 22:00–06:00 on day 0, already assigned. -/
def overnightShift : Shift := ⟨1, 1, 0, 1320, 360, "", some 5, none⟩

/-- A check-in on the overnight shift at 23:50 of the shift's date. -/
def overnightLateEveningArgs : CheckInArgs :=
  ⟨overnightShift, exPremise, exPayloadU, exGuardUser, false, 15, 60, false, 0,
    1430, 1430, 1430, [overnightShift]⟩

/-- A check-in on the overnight shift at 05:30 of the following day. -/
def overnightEarlyMorningArgs : CheckInArgs :=
  ⟨overnightShift, exPremise, exPayloadU, exGuardUser, false, 15, 60, false, 0,
    1770, 1770, 1770, [overnightShift]⟩

/-- A spec-side definition, following the words of the specification: the
claimed per-guard applicable consecutive-duty cap — the global cap of 6,
which a per-guard override may lower but never raise. -/
def applicableCap (g : Guard) : Int :=
  match g.profile with
  | some p => min 6 p.maxConsecutiveDays
  | none => 6

/-- A guard whose profile lowers the consecutive-duty cap to 3. -/
def exOverrideGuard : Guard := ⟨7, true, false, some ⟨"", 0, 3⟩⟩

/-- A shift on day `d` assigned to guard 7. -/
def mkAssigned (i : Nat) (d : Int) : Shift := ⟨i, 1, d, 480, 960, "", some 7, none⟩

/-- Shift table giving guard 7 a 4-day streak over days 6–9. -/
def exStreakDb4 : List Shift := [mkAssigned 1 6, mkAssigned 2 7, mkAssigned 3 8, mkAssigned 4 9]

/-- Shift table giving guard 7 a 6-day streak over days 4–9. -/
def exStreakDb6 : List Shift :=
  [mkAssigned 1 4, mkAssigned 2 5, mkAssigned 3 6, mkAssigned 4 7, mkAssigned 5 8,
    mkAssigned 6 9]

/-- An unassigned target shift on day 10. -/
def exTargetShift : Shift := ⟨10, 1, 10, 480, 960, "", none, none⟩

/-- A spec-side definition, following the words of the specification:
`skillFraction` is 1.0 if the shift requires no skills, otherwise the
fraction of required skill tags the guard also holds (0 if none match). -/
def skillFraction_spec (guardSkills shiftSkills : List String) : ℚ :=
  if shiftSkills = [] then 1
  else ((shiftSkills.countP (fun t => decide (t ∈ guardSkills)) : ℚ) /
    (shiftSkills.length : ℚ))

/-! Theorems. -/

/-- C5: for every guard and shift, the allocation score equals
`skillFraction × 5.0 + min(experienceYears, 20) × 0.5 −
consecutiveDaysBefore × 1.0 − recentAssignmentCount(7-day window) × 0.8`,
where `skillFraction` is 1.0 when the shift requires no skills and otherwise
the fraction of required skill tags the guard also holds, and the returned
breakdown records each term.  `skillFraction_spec` below restates the
claim's fraction in the spec's words. -/
theorem allocation_score_formula (db : List Shift) (g : Guard) (s : Shift) :
    (score_guard_for_shift db g s).1 =
        skillFraction_spec (split_tags (profileSkills g)) (split_tags s.requiredSkills) * 5
        + ((min (profileExp g) 20 : Int) : ℚ) * (1 / 2)
        - (consecutive_days_before db g.id s.date : ℚ) * 1
        - (recent_assignments_count db g.id s.date : ℚ) * (4 / 5)
    ∧ (score_guard_for_shift db g s).2.skill_frac =
        skillFraction_spec (split_tags (profileSkills g)) (split_tags s.requiredSkills)
    ∧ (score_guard_for_shift db g s).2.skill_score =
        skillFraction_spec (split_tags (profileSkills g)) (split_tags s.requiredSkills) * 5
    ∧ (score_guard_for_shift db g s).2.experience_years = profileExp g
    ∧ (score_guard_for_shift db g s).2.experience_score =
        ((min (profileExp g) 20 : Int) : ℚ) * (1 / 2)
    ∧ (score_guard_for_shift db g s).2.consecutive_before =
        consecutive_days_before db g.id s.date
    ∧ (score_guard_for_shift db g s).2.consecutive_penalty =
        (consecutive_days_before db g.id s.date : ℚ) * 1
    ∧ (score_guard_for_shift db g s).2.fairness_recent =
        recent_assignments_count db g.id s.date
    ∧ (score_guard_for_shift db g s).2.fairness_penalty =
        (recent_assignments_count db g.id s.date : ℚ) * (4 / 5)
    ∧ (score_guard_for_shift db g s).2.total = (score_guard_for_shift db g s).1 := by
  refine ⟨rfl, rfl, rfl, rfl, rfl, rfl, rfl, rfl, rfl, rfl⟩

/-- C2: the view's check-in gate (`AttendanceView.post` 627–647) computes
the window without the overnight adjustment, so for the 22:00–06:00 shift it
rejects both 23:50 and 05:30 with the outside-window error, while the
serializer's own resolver window (which does add 24 hours) contains both
instants — the code contradicts the claim and its own resolver. -/
theorem overnight_window_rejected_by_view :
    checkIn overnightLateEveningArgs [] = .outsideWindow
    ∧ checkIn overnightEarlyMorningArgs [] = .outsideWindow
    ∧ windowContains overnightShift 1430 15 60 = true
    ∧ windowContains overnightShift 1770 15 60 = true
    ∧ overnightShift.endTime ≤ overnightShift.startTime := by
  decide

/-- An unassigned 08:00–16:00 shift on day 0 with no required skills. -/
def exUnassignedShift : Shift := ⟨1, 1, 0, 480, 960, "", none, none⟩

/-- A single candidate guard for the allocation run. -/
def exRunUsers : List Guard := [⟨5, true, false, none⟩]

/-- A check-in at 07:50 on the unassigned shift, triggering auto-assignment. -/
def autoAssignArgs : CheckInArgs :=
  ⟨exUnassignedShift, exPremise, exPayloadU, exGuardUser, false, 15, 60, false, 0,
    470, 470, 470, [exUnassignedShift]⟩

/-- C8: of the three operations that set `assigned_guard`, only the
allocation endpoint also sets `assigned_at`; the allocation-run commit
(`allocation.py` 159–161) and the check-in auto-assignment (`views.py`
676–677) save `update_fields=["assigned_guard"]` only, leaving
`assigned_at` null on an assigned shift, contrary to the claim and to the
field's own documentation. -/
theorem assigned_at_left_null :
    run_allocation_for_day [exUnassignedShift] exRunUsers 0 =
      [⟨1, 1, 0, 480, 960, "", some 5, none⟩]
    ∧ checkIn autoAssignArgs [] =
        .ok ⟨some 9, 1, 470, .ON_TIME⟩ true [⟨1, 1, 0, 480, 960, "", some 9, none⟩]
          [⟨some 9, 1, 470, .ON_TIME⟩]
    ∧ alloc_endpoint_commit exUnassignedShift 5 777 =
        ⟨1, 1, 0, 480, 960, "", some 5, some 777⟩ := by
  decide

/-- C6 counterexample: guard 7's profile lowers the cap to 3 and the guard
has a 4-day streak immediately before day 10, so under the claim's
applicable cap (streak 4 ≥ cap 3) the guard must be excluded — yet
`find_candidates` still lists the guard, because the per-guard override
field is never consulted. -/
theorem per_guard_cap_override_ignored :
    applicableCap exOverrideGuard = 3
    ∧ consecutive_days_before exStreakDb4 7 10 = 4
    ∧ (applicableCap exOverrideGuard : Int) ≤ (consecutive_days_before exStreakDb4 7 10 : Int)
    ∧ exOverrideGuard ∈ find_candidates exStreakDb4 [exOverrideGuard] exTargetShift := by
  decide

/-- C6 (amended): for every guard whose consecutive-day streak immediately
preceding the shift's date is ≥ the global cap `MAX_CONSECUTIVE_DAYS = 6`,
the guard is excluded from the candidate list; the per-guard override field
plays no role in the filter. -/
theorem global_cap_exclusion (db : List Shift) (users : List Guard) (s : Shift)
    (g : Guard) (h : MAX_CONSECUTIVE_DAYS ≤ consecutive_days_before db g.id s.date) :
    g ∉ find_candidates db users s := by
  intro hmem
  unfold find_candidates at hmem
  have h2 := (List.mem_filter.mp hmem).2
  rw [decide_eq_true_eq] at h2
  omega

/-- Witness for C6's amended theorem: with a 6-day streak guard 7 is
excluded. -/
theorem global_cap_exclusion_witness :
    exOverrideGuard ∉ find_candidates exStreakDb6 [exOverrideGuard] exTargetShift :=
  global_cap_exclusion exStreakDb6 [exOverrideGuard] exTargetShift exOverrideGuard
    (by decide)

/-- A check-in on the already-assigned day shift at 07:50, with matching
payload and no force. -/
def dupArgs : CheckInArgs :=
  ⟨dayShift, exPremise, exPayloadU, exGuardUser, false, 15, 60, false, 0,
    470, 470, 470, [dayShift]⟩

/-- An attendance record already on file for guard 9 and shift 1. -/
def priorRecord : AttendanceRecord := ⟨some 9, 1, 400, .ON_TIME⟩

/-- C1 counterexample: with a record already on file for (guard 9, shift 1),
a second check-in by guard 9 for shift 1 still succeeds and appends a second
record, so two records exist for the pair — the verifier has no duplicate
check. -/
theorem duplicate_checkin_succeeds :
    checkIn dupArgs [priorRecord] =
      .ok ⟨some 9, 1, 470, .ON_TIME⟩ false [dayShift]
        [priorRecord, ⟨some 9, 1, 470, .ON_TIME⟩]
    ∧ ([priorRecord, ⟨some 9, 1, 470, .ON_TIME⟩] : List AttendanceRecord).countP
        (fun t => decide (t.guard = some 9 ∧ t.shiftId = 1)) = 2 := by
  decide

/-- A check-in outside the window (20:00 on the 08:00–16:00 shift) by a
staff caller with the force flag set, but without the config override. -/
def forceStaffNoConfigArgs : CheckInArgs :=
  ⟨dayShift, exPremise, exPayloadU, exStaffUser, true, 15, 60, false, 0,
    1200, 1200, 1200, [dayShift]⟩

/-- The same out-of-window check-in with the config override enabled but a
non-staff caller. -/
def forceConfigNoStaffArgs : CheckInArgs :=
  ⟨dayShift, exPremise, exPayloadU, exGuardUser, true, 15, 60, true, 0,
    1200, 1200, 1200, [dayShift]⟩

/-- C3 counterexample: at 20:00 (outside the 07:45–17:00 window) with the
force flag set, a staff caller without the config override is rejected, and
so is a non-staff caller with the config override — each of the two arms of
the claim's disjunction ("privileged role, or a config override") fails,
because the code demands the conjunction of flag, staff role and override. -/
theorem force_disjunction_rejected :
    checkIn forceStaffNoConfigArgs [] = .outsideWindow
    ∧ checkIn forceConfigNoStaffArgs [] = .outsideWindow
    ∧ ¬(viewStart dayShift - 15 ≤ 1200 ∧ 1200 ≤ viewEnd dayShift + 60)
    ∧ exStaffUser.isStaff = true ∧ forceStaffNoConfigArgs.force = true
    ∧ forceConfigNoStaffArgs.staffCanForce = true
    ∧ forceConfigNoStaffArgs.force = true := by
  decide

/-- The status-finalization rule the view actually implements: every
successful check-in's finalized status is `ON_TIME` exactly when the
finalization moment (`timezone.now()` taken after the save) is at or before
the unadjusted instant `datetime.combine(shift.date, shift.end_time)`, and
`LATE` otherwise.  For a midnight-crossing shift this instant is not the
shift's end instant — see the C4 theorem below. -/
theorem checkin_status_finalization (a : CheckInArgs) (records : List AttendanceRecord)
    (r : AttendanceRecord) (auto : Bool) (db' : List Shift)
    (recs' : List AttendanceRecord) (h : checkIn a records = .ok r auto db' recs') :
    r.status = (if a.now2 ≤ viewEnd a.shift then AttStatus.ON_TIME else AttStatus.LATE) := by
  unfold checkIn at h
  split at h
  · exact absurd h (by simp)
  · exact absurd h (by simp)
  · split at h
    · exact absurd h (by simp)
    · split at h
      · exact absurd h (by simp)
      · rw [CheckInOutcome.ok.injEq] at h
        rw [← h.1]
        rfl

/-- A check-in on the 08:00–16:00 shift with the finalization moment at
07:50. -/
def onTimeArgs : CheckInArgs :=
  ⟨dayShift, exPremise, exPayloadU, exGuardUser, false, 15, 60, false, 0,
    470, 470, 470, [dayShift]⟩

/-- A check-in on the 08:00–16:00 shift with the finalization moment at
16:30 (inside the 17:00 late margin). -/
def lateArgs : CheckInArgs :=
  ⟨dayShift, exPremise, exPayloadU, exGuardUser, false, 15, 60, false, 0,
    990, 990, 990, [dayShift]⟩

/-- Instances of the finalization rule: the 07:50 check-in on the
08:00–16:00 shift is `ON_TIME`, the 16:30 one is `LATE` (the claim's
non-overnight examples, where the unadjusted instant is the end instant). -/
theorem checkin_status_finalization_witness :
    (⟨some 9, 1, 470, .ON_TIME⟩ : AttendanceRecord).status =
      (if onTimeArgs.now2 ≤ viewEnd onTimeArgs.shift then AttStatus.ON_TIME
        else AttStatus.LATE)
    ∧ (⟨some 9, 1, 990, .LATE⟩ : AttendanceRecord).status =
      (if lateArgs.now2 ≤ viewEnd lateArgs.shift then AttStatus.ON_TIME
        else AttStatus.LATE) :=
  ⟨checkin_status_finalization onTimeArgs [] ⟨some 9, 1, 470, .ON_TIME⟩ false [dayShift]
      [⟨some 9, 1, 470, .ON_TIME⟩] (by decide),
    checkin_status_finalization lateArgs [] ⟨some 9, 1, 990, .LATE⟩ false [dayShift]
      [⟨some 9, 1, 990, .LATE⟩] (by decide)⟩

/-- A spec-side definition, following the specification's data model: the
shift's end instant, lying on the following day when the end is numerically
≤ the start (the shift crosses midnight). -/
def endInstant_spec (s : Shift) : Int :=
  if s.endTime ≤ s.startTime then s.date * 1440 + s.endTime + 1440
  else s.date * 1440 + s.endTime

/-- An overnight forced check-in: a staff guard with the force flag and the
config override both set, on the (assigned) 22:00–06:00 shift, every moment
reading 23:50 of the shift's date. -/
def overnightForcedArgs : CheckInArgs :=
  ⟨overnightShift, exPremise, exPayloadU, exStaffUser, true, 15, 60, true, 0,
    1430, 1430, 1430, [overnightShift]⟩

/-- C4: the claim says a successful check-in is `ON_TIME` when its moment is
at or before the shift's end instant; for the midnight-crossing 22:00–06:00
shift that instant is 06:00 of the next day, but the view finalizes against
the unadjusted `datetime.combine(shift.date, shift.end_time)`.  The forced
staff check-in at 23:50 (reachable: window and role gates are bypassed)
succeeds and is finalized `LATE` although its moment precedes the shift's
end instant — the same missing overnight adjustment as C2, leaking into
status finalization. -/
theorem overnight_status_late_before_true_end :
    checkIn overnightForcedArgs [] =
      .ok ⟨some 9, 1, 1430, .LATE⟩ false [overnightShift] [⟨some 9, 1, 1430, .LATE⟩]
    ∧ overnightShift.endTime ≤ overnightShift.startTime
    ∧ overnightForcedArgs.now2 ≤ endInstant_spec overnightShift
    ∧ ¬(overnightForcedArgs.now2 ≤ viewEnd overnightShift) := by
  decide

/-- C10: a non-empty uuid in the scan payload takes strict precedence over a
numeric id both in the view's payload-versus-premise gate and in the
serializer's premise resolution: the gate accepts exactly when the uuid
matches the premise, resolution looks the premise up by uuid only, and
replacing every id field of the payload changes neither outcome. -/
theorem uuid_precedence (prem : Premise) (premises : List Premise) (q : QRPayload)
    (uu : String) (hu : q.uuid = some uu) (hne : uu ≠ "") :
    (payloadGate q prem = .ok ↔ prem.uuid = uu)
    ∧ (resolvePremise premises q =
        match premises.find? (fun pr => pr.uuid = uu) with
        | some pr => PremResolve.byUuid pr
        | none => PremResolve.errUuidNotFound)
    ∧ (∀ i1 i2 i3,
        payloadGate { q with id := i1, premise_id := i2, p := i3 } prem =
          payloadGate q prem
        ∧ resolvePremise premises { q with id := i1, premise_id := i2, p := i3 } =
          resolvePremise premises q) := by
  have heff : effUuid q = some uu := by
    simp [effUuid, firstTruthyStr, hu, hne]
  refine ⟨?_, ?_, ?_⟩
  · rw [payloadGate, hu]
    by_cases hpu : prem.uuid = uu
    · simp [hpu]
    · simp [hpu]
  · rw [resolvePremise, heff]
  · intro i1 i2 i3
    constructor
    · rw [payloadGate, payloadGate, hu]
    · have heff2 : effUuid { q with id := i1, premise_id := i2, p := i3 } = some uu := by
        simp [effUuid, firstTruthyStr, hu, hne]
      rw [resolvePremise, resolvePremise, heff, heff2]

/-- A second premise, pk 2 with uuid "XYZ". -/
def exPremise2 : Premise := ⟨2, "XYZ"⟩

/-- A payload whose uuid names premise 2 while its id names premise 1. -/
def conflictPayload : QRPayload := ⟨some "XYZ", none, none, some 1, none, none⟩

/-- Witness for C10: a payload carrying uuid "XYZ" and id 1, checked against
premise 1 (uuid "ABC"): only the uuid is compared, so the gate accepts iff
"ABC" = "XYZ" (it does not, despite the matching id), and resolution finds
premise 2 by uuid. -/
theorem uuid_precedence_witness :
    (payloadGate conflictPayload exPremise = .ok ↔ exPremise.uuid = "XYZ")
    ∧ (resolvePremise [exPremise, exPremise2] conflictPayload =
        match [exPremise, exPremise2].find? (fun pr => pr.uuid = "XYZ") with
        | some pr => PremResolve.byUuid pr
        | none => PremResolve.errUuidNotFound)
    ∧ (∀ i1 i2 i3,
        payloadGate { conflictPayload with id := i1, premise_id := i2, p := i3 }
            exPremise = payloadGate conflictPayload exPremise
        ∧ resolvePremise [exPremise, exPremise2]
            { conflictPayload with id := i1, premise_id := i2, p := i3 } =
          resolvePremise [exPremise, exPremise2] conflictPayload) :=
  uuid_precedence exPremise [exPremise, exPremise2] conflictPayload "XYZ" rfl (by decide)

/-- C1 (amended): the verifier performs no duplicate check — a check-in's
outcome is independent of the existing attendance records, and every
successful check-in appends exactly one more record for (caller, shift),
so multiple records may accumulate for the same pair. -/
theorem no_duplicate_detection (a : CheckInArgs) (records : List AttendanceRecord)
    (r : AttendanceRecord) (auto : Bool) (db' : List Shift)
    (recs' : List AttendanceRecord) (h : checkIn a records = .ok r auto db' recs') :
    recs' = records ++ [r] ∧ r.guard = some a.user.id ∧ r.shiftId = a.shift.id
    ∧ ∀ records₂, checkIn a records₂ = .ok r auto db' (records₂ ++ [r]) := by
  unfold checkIn at h
  split at h
  · exact absurd h (by simp)
  · exact absurd h (by simp)
  · rename_i heq
    split at h
    · exact absurd h (by simp)
    · rename_i hc1
      split at h
      · exact absurd h (by simp)
      · rename_i hc2
        rw [CheckInOutcome.ok.injEq] at h
        obtain ⟨h1, h2, h3, h4⟩ := h
        subst h1
        subst h2
        subst h3
        subst h4
        refine ⟨rfl, rfl, rfl, ?_⟩
        intro records₂
        simp only [checkIn, heq]
        rw [if_neg hc1, if_neg hc2]

/-- Witness for C1's amended theorem: the successful check-in of `dupArgs`
with an empty attendance table transfers to the table already holding
`priorRecord`, appending a second record for the same (guard, shift). -/
theorem no_duplicate_detection_witness :
    checkIn dupArgs [priorRecord] =
      .ok ⟨some 9, 1, 470, .ON_TIME⟩ false [dayShift]
        ([priorRecord] ++ [⟨some 9, 1, 470, .ON_TIME⟩]) :=
  (no_duplicate_detection dupArgs [] ⟨some 9, 1, 470, .ON_TIME⟩ false [dayShift]
    [⟨some 9, 1, 470, .ON_TIME⟩] (by decide)).2.2.2 [priorRecord]

/-- C3 (amended): for a check-in whose payload gate passes and whose gate
moment is outside `[start − earlyMinutes, end + lateMinutes]`, verification
fails with the outside-window error and creates no record unless the force
flag is set, the caller is staff, and the `ATTENDANCE_ALLOW_FORCE_FOR_STAFF`
config override is enabled — all three are required (a conjunction, not the
claim's disjunction); with all three the window gate is bypassed and the
check-in succeeds. -/
theorem window_gate_force_requires_all (a : CheckInArgs)
    (records : List AttendanceRecord)
    (hp : payloadGate a.payload a.premise = .ok)
    (hout : ¬(viewStart a.shift - a.early ≤ a.now ∧ a.now ≤ viewEnd a.shift + a.late)) :
    (¬(a.staffCanForce = true ∧ a.user.isStaff = true ∧ a.force = true) →
      checkIn a records = .outsideWindow)
    ∧ ((a.staffCanForce = true ∧ a.user.isStaff = true ∧ a.force = true) →
      checkIn a records = .ok (newRecord a) (autoAssign a).2 (autoAssign a).1
        (records ++ [newRecord a])) := by
  constructor
  · intro hno
    have hb : ¬((a.staffCanForce && a.user.isStaff && a.force) = true) := by
      simp only [Bool.and_eq_true]
      exact fun hx => hno ⟨hx.1.1, hx.1.2, hx.2⟩
    simp only [checkIn, hp]
    rw [if_pos ⟨hout, hb⟩]
  · intro hyes
    have hb : (a.staffCanForce && a.user.isStaff && a.force) = true := by
      simp only [Bool.and_eq_true]
      exact ⟨⟨hyes.1, hyes.2.1⟩, hyes.2.2⟩
    simp only [checkIn, hp]
    rw [if_neg (fun hx => hx.2 hb), if_neg (fun hx => hx.2 hb)]

/-- A check-in at 20:00 on the 08:00–16:00 shift without any force. -/
def plainOutsideArgs : CheckInArgs :=
  ⟨dayShift, exPremise, exPayloadU, exGuardUser, false, 15, 60, false, 0,
    1200, 1200, 1200, [dayShift]⟩

/-- Witness for C3's amended theorem: the 20:00 check-in without force is
rejected outside the window. -/
theorem window_gate_force_requires_all_witness :
    checkIn plainOutsideArgs [] = .outsideWindow :=
  (window_gate_force_requires_all plainOutsideArgs [] (by decide) (by decide)).1
    (by decide)

/-! Lemmas supporting the single-assignment-per-day invariant (C7). -/

/-- A candidate returned by `find_candidates` is assigned to no other shift
of the target shift's date. -/
lemma find_candidates_no_other_same_day {db : List Shift} {users : List Guard}
    {s : Shift} {g : Guard} (hg : g ∈ find_candidates db users s) :
    ∀ t ∈ db, t.date = s.date → t.id ≠ s.id → t.assignedGuard ≠ some g.id := by
  intro t ht hdate hid hassign
  unfold find_candidates at hg
  have h1 := (List.mem_filter.mp hg).1
  have h2 := (List.mem_filter.mp h1).2
  rw [decide_eq_true_eq] at h2
  exact h2 (List.mem_filterMap.mpr
    ⟨t, List.mem_filter.mpr ⟨ht, by simp [hdate, hid, hassign]⟩, hassign⟩)

/-- The running best of the descending-stable-sort-then-head idiom is an
element of the scanned list. -/
lemma foldl_pick_mem :
    ∀ (as : List (ℚ × Guard × ScoreBreakdown)) (a : ℚ × Guard × ScoreBreakdown),
      as.foldl (fun acc y => if acc.1 < y.1 then y else acc) a ∈ a :: as := by
  intro as
  induction as with
  | nil => intro a; exact List.mem_cons_self a []
  | cons y ys ih =>
    intro a
    rw [List.foldl_cons]
    rcases List.mem_cons.mp (ih (if a.1 < y.1 then y else a)) with h | h
    · rw [h]
      by_cases hc : a.1 < y.1
      · simp [hc]
      · simp [hc]
    · exact List.mem_cons_of_mem a (List.mem_cons_of_mem y h)

/-- `pickBest` returns an element of its input. -/
lemma pickBest_mem {l : List (ℚ × Guard × ScoreBreakdown)}
    {x : ℚ × Guard × ScoreBreakdown} (h : pickBest l = some x) : x ∈ l := by
  cases l with
  | nil => simp [pickBest] at h
  | cons a as =>
    simp only [pickBest, Option.some.injEq] at h
    rw [← h]
    exact foldl_pick_mem as a

/-- Counting is monotone along a pointwise implication of predicates. -/
lemma countP_le_of_imp {α : Type} (p q : α → Bool) :
    ∀ (l : List α), (∀ x ∈ l, p x = true → q x = true) →
      l.countP p ≤ l.countP q := by
  intro l
  induction l with
  | nil => intro _; simp
  | cons x xs ih =>
    intro h
    rw [List.countP_cons, List.countP_cons]
    have hxs := ih (fun y hy => h y (List.mem_cons_of_mem x hy))
    by_cases hp : p x = true
    · rw [if_pos hp, if_pos (h x (List.mem_cons_self x xs) hp)]
      omega
    · rw [if_neg hp]
      by_cases hq : q x = true
      · rw [if_pos hq]; omega
      · rw [if_neg hq]; omega

/-- Under distinct pks, at most one row matches a given pk. -/
lemma countP_id_le_one {db : List Shift} (h : (db.map Shift.id).Nodup) (sid : Nat) :
    db.countP (fun t => decide (t.id = sid)) ≤ 1 := by
  induction db with
  | nil => simp
  | cons t ts ih =>
    rw [List.map_cons, List.nodup_cons] at h
    rw [List.countP_cons]
    by_cases hc : t.id = sid
    · have hz : ts.countP (fun t => decide (t.id = sid)) = 0 := by
        rw [List.countP_eq_zero]
        intro u hu
        simp only [decide_eq_true_eq]
        intro he
        exact h.1 (List.mem_map.mpr ⟨u, hu, by rw [he, hc]⟩)
      rw [hz]
      split <;> omega
    · rw [if_neg (by simpa using hc)]
      exact Nat.le_trans (Nat.le_refl _) (ih h.2)

/-- Writing `assigned_guard` does not change the pk column. -/
lemma assignShift_map_id (db : List Shift) (sid gid : Nat) :
    (assignShift db sid gid).map Shift.id = db.map Shift.id := by
  unfold assignShift
  rw [List.map_map]
  apply List.map_congr_left
  intro t _
  by_cases hc : t.id = sid <;> simp [Function.comp, hc]

/-- After committing a candidate free of same-day assignments, the guard
holds at most one shift of that date. -/
lemma dayCount_assignShift_self {db : List Shift} {d : Int} {sid gid : Nat}
    (hnodup : (db.map Shift.id).Nodup)
    (hno : ∀ t ∈ db, t.date = d → t.id ≠ sid → t.assignedGuard ≠ some gid) :
    dayCount (assignShift db sid gid) d gid ≤ 1 := by
  unfold dayCount assignShift
  rw [List.countP_map]
  refine Nat.le_trans (countP_le_of_imp _ (fun t => decide (t.id = sid)) db ?_)
    (countP_id_le_one hnodup sid)
  intro t ht hp
  by_cases hc : t.id = sid
  · simpa using hc
  · exfalso
    simp only [Function.comp, hc, if_neg hc, Bool.and_eq_true, decide_eq_true_eq] at hp
    exact hno t ht hp.1 hc hp.2

/-- Committing a candidate does not increase any other guard's same-day
assignment count. -/
lemma dayCount_assignShift_other {db : List Shift} {d : Int} {sid gid g' : Nat}
    (hne : g' ≠ gid) :
    dayCount (assignShift db sid gid) d g' ≤ dayCount db d g' := by
  unfold dayCount assignShift
  rw [List.countP_map]
  apply countP_le_of_imp
  intro t ht hp
  by_cases hc : t.id = sid
  · exfalso
    simp only [Function.comp, hc, if_pos hc, Bool.and_eq_true, decide_eq_true_eq] at hp
    exact hne (by injection hp.2 with h; exact h.symm)
  · simpa [Function.comp, hc] using hp

/-- The allocation loop preserves "at most one shift per guard on date
`d`", provided pks are distinct and every pending snapshot shift is dated
`d`. -/
lemma run_allocation_go_dayCount (users : List Guard) (d : Int) :
    ∀ (pending db : List Shift),
      (db.map Shift.id).Nodup →
      (∀ s ∈ pending, s.date = d) →
      (∀ gid, dayCount db d gid ≤ 1) →
      ∀ gid, dayCount (run_allocation_go users pending db) d gid ≤ 1 := by
  intro pending
  induction pending with
  | nil =>
    intro db _ _ hpre gid
    simpa [run_allocation_go] using hpre gid
  | cons s rest ih =>
    intro db hnodup hdates hpre gid
    have hrestdates : ∀ t ∈ rest, t.date = d :=
      fun t ht => hdates t (List.mem_cons_of_mem s ht)
    rw [run_allocation_go]
    split
    · exact ih db hnodup hrestdates hpre gid
    · split
      · exact ih db hnodup hrestdates hpre gid
      · rename_i best hpick
        split
        · exact ih db hnodup hrestdates hpre gid
        · have hbmem := pickBest_mem hpick
          obtain ⟨g0, hg0, hEq⟩ := List.mem_map.mp hbmem
          have hgmem : best.2.1 ∈ find_candidates db users s := by
            rw [← hEq]
            exact hg0
          have hsdate : s.date = d := hdates s (List.mem_cons_self s rest)
          have hno : ∀ t ∈ db, t.date = d → t.id ≠ s.id →
              t.assignedGuard ≠ some best.2.1.id := by
            intro t ht hdt hid
            exact find_candidates_no_other_same_day hgmem t ht
              (by rw [hdt, hsdate]) hid
          apply ih
          · rw [assignShift_map_id]
            exact hnodup
          · exact hrestdates
          · intro gid'
            by_cases hg' : gid' = best.2.1.id
            · subst hg'
              exact dayCount_assignShift_self hnodup hno
            · exact Nat.le_trans (dayCount_assignShift_other hg') (hpre gid')

/-- Inserting preserves membership. -/
lemma mem_insertBy {lt : Shift → Shift → Bool} {x y : Shift} :
    ∀ {l : List Shift}, y ∈ insertBy lt x l ↔ y = x ∨ y ∈ l := by
  intro l
  induction l with
  | nil => simp [insertBy]
  | cons z zs ih =>
    rw [insertBy]
    split
    · rw [List.mem_cons, ih, List.mem_cons]
      tauto
    · simp [List.mem_cons]

/-- The stable sort preserves membership. -/
lemma mem_sortBy {lt : Shift → Shift → Bool} {y : Shift} :
    ∀ {l : List Shift}, y ∈ sortBy lt l ↔ y ∈ l := by
  intro l
  induction l with
  | nil => simp [sortBy]
  | cons z zs ih =>
    rw [sortBy, mem_insertBy, ih, List.mem_cons]

/-- C7: for every date and shift table with distinct pks in which no guard
already holds two assignments on that date, after a single
`run_allocation_for_day` run no guard is the assigned guard of two distinct
shifts on that date — at most one shift per guard per calendar day. -/
theorem single_assignment_per_day (db : List Shift) (users : List Guard)
    (runDate : Int) (hnodup : (db.map Shift.id).Nodup)
    (hpre : ∀ gid, dayCount db runDate gid ≤ 1) :
    ∀ gid, dayCount (run_allocation_for_day db users runDate) runDate gid ≤ 1 := by
  unfold run_allocation_for_day sortByStart
  apply run_allocation_go_dayCount users runDate _ db hnodup ?_ hpre
  intro s hs
  have h2 := List.mem_filter.mp (mem_sortBy.mp hs)
  simpa using h2.2

/-- An unassigned 08:00–16:00 shift, pk 1, on day 0. -/
def exDayShiftA : Shift := ⟨1, 1, 0, 480, 960, "", none, none⟩

/-- An unassigned 16:00–22:00 shift, pk 2, on day 0. -/
def exDayShiftB : Shift := ⟨2, 1, 0, 960, 1320, "", none, none⟩

/-- Two candidate guards. -/
def exTwoGuards : List Guard := [⟨5, true, false, none⟩, ⟨6, true, false, none⟩]

/-- Witness for C7: running allocation over two unassigned same-day shifts
and two guards leaves each guard with at most one shift of the day. -/
theorem single_assignment_per_day_witness :
    dayCount (run_allocation_for_day [exDayShiftA, exDayShiftB] exTwoGuards 0) 0 5 ≤ 1
    ∧ dayCount (run_allocation_for_day [exDayShiftA, exDayShiftB] exTwoGuards 0) 0 6 ≤ 1 :=
  ⟨single_assignment_per_day [exDayShiftA, exDayShiftB] exTwoGuards 0 (by decide)
      (fun gid => by simp [dayCount, exDayShiftA, exDayShiftB, List.countP_cons]) 5,
    single_assignment_per_day [exDayShiftA, exDayShiftB] exTwoGuards 0 (by decide)
      (fun gid => by simp [dayCount, exDayShiftA, exDayShiftB, List.countP_cons]) 6⟩

/-! Lemmas supporting the resolver characterization (C9). -/

/-- The fallback scan returns the earliest-visited candidate attaining the
minimal start-instant distance: the scanned list decomposes around the
result, every candidate visited before it lies strictly farther from `now`,
and no candidate lies nearer. -/
lemma fallbackGo_first_min (now : Int) :
    ∀ (l : List Shift) (b : Shift),
      ∃ pre post, b :: l = pre ++ (fallbackGo now l b) :: post
        ∧ (∀ t ∈ pre, startDiff (fallbackGo now l b) now < startDiff t now)
        ∧ (∀ t ∈ b :: l, startDiff (fallbackGo now l b) now ≤ startDiff t now) := by
  intro l
  induction l with
  | nil =>
    intro b
    refine ⟨[], [], by simp [fallbackGo], by simp, ?_⟩
    intro t ht
    rcases List.mem_cons.mp ht with h | h
    · rw [h, fallbackGo]
    · simp at h
  | cons s rest ih =>
    intro b
    rw [fallbackGo]
    split
    · rename_i hlt
      obtain ⟨pre', post', hdec, hstrict, hmin⟩ := ih s
      refine ⟨b :: pre', post', by rw [List.cons_append, ← hdec], ?_, ?_⟩
      · intro t ht
        rcases List.mem_cons.mp ht with h | h
        · rw [h]
          exact lt_of_le_of_lt (hmin s (List.mem_cons_self s rest)) hlt
        · exact hstrict t h
      · intro t ht
        rcases List.mem_cons.mp ht with h | h
        · rw [h]
          exact le_of_lt (lt_of_le_of_lt (hmin s (List.mem_cons_self s rest)) hlt)
        · exact hmin t h
    · rename_i hnlt
      obtain ⟨pre', post', hdec, hstrict, hmin⟩ := ih b
      cases pre' with
      | nil =>
        rw [List.nil_append] at hdec
        injection hdec with h1 h2
        refine ⟨[], s :: rest, by rw [List.nil_append, ← h1], by simp, ?_⟩
        intro t ht
        rcases List.mem_cons.mp ht with h | h
        · rw [h, ← h1]
        · rcases List.mem_cons.mp h with h3 | h3
          · rw [h3, ← h1]
            exact not_lt.mp hnlt
          · exact hmin t (List.mem_cons_of_mem b h3)
      | cons p pre₂ =>
        rw [List.cons_append] at hdec
        injection hdec with h1 h2
        subst h1
        have hmb : startDiff (fallbackGo now rest b) now < startDiff b now :=
          hstrict b (List.mem_cons_self b pre₂)
        refine ⟨b :: s :: pre₂, post',
          by rw [List.cons_append, List.cons_append, ← h2], ?_, ?_⟩
        · intro t ht
          rcases List.mem_cons.mp ht with h | h
          · rw [h]
            exact hmb
          · rcases List.mem_cons.mp h with h3 | h3
            · rw [h3]
              exact lt_of_lt_of_le hmb (not_lt.mp hnlt)
            · exact hstrict t (List.mem_cons_of_mem b h3)
        · intro t ht
          rcases List.mem_cons.mp ht with h | h
          · rw [h]
            exact hmin b (List.mem_cons_self b rest)
          · rcases List.mem_cons.mp h with h3 | h3
            · rw [h3]
              exact le_of_lt (lt_of_lt_of_le hmb (not_lt.mp hnlt))
            · exact hmin t (List.mem_cons_of_mem b h3)

/-- C9 (amended): whenever the resolver returns a shift, either that shift
is the first of the traversal order (dates today−1, today, today+1, each
day's premise shifts by start time) whose allowed window contains `now` —
no earlier candidate's window contains it — or no candidate's window
contains `now` and the result is the earliest-visited candidate whose shift
start instant is nearest to `now` (minimal `|start − now|`, every
earlier-visited candidate strictly farther), with no preference for today's
date. -/
theorem resolver_characterization (db : List Shift) (prem : Premise)
    (now early late : Int) (tol : Nat) (r : Shift)
    (h : resolve_shift_from_premise db prem now early late tol = some r) :
    (∃ pre post,
        searchList db prem.id (Int.fdiv now 1440) tol = pre ++ r :: post
        ∧ windowContains r now early late = true
        ∧ ∀ t ∈ pre, windowContains t now early late = false)
    ∨ ((∀ t ∈ searchList db prem.id (Int.fdiv now 1440) tol,
          windowContains t now early late = false)
        ∧ ∃ pre post,
            searchList db prem.id (Int.fdiv now 1440) tol = pre ++ r :: post
            ∧ (∀ t ∈ pre, startDiff r now < startDiff t now)
            ∧ ∀ t ∈ searchList db prem.id (Int.fdiv now 1440) tol,
                startDiff r now ≤ startDiff t now) := by
  unfold resolve_shift_from_premise at h
  split at h
  · rename_i s hf
    rw [Option.some.injEq] at h
    subst h
    left
    obtain ⟨hp, pre, post, hsplit, hprefix⟩ := List.find?_eq_some.mp hf
    exact ⟨pre, post, hsplit, hp, fun t ht => by simpa using hprefix t ht⟩
  · rename_i hf
    right
    have hnone : ∀ t ∈ searchList db prem.id (Int.fdiv now 1440) tol,
        windowContains t now early late = false := by
      intro t ht
      simpa using List.find?_eq_none.mp hf t ht
    refine ⟨hnone, ?_⟩
    rcases hsl : searchList db prem.id (Int.fdiv now 1440) tol with _ | ⟨b, rest⟩
    · rw [hsl] at h
      simp [fallbackNearest] at h
    · rw [hsl] at h
      simp only [fallbackNearest, Option.some.injEq] at h
      obtain ⟨pre, post, hdec, hstrict, hmin⟩ := fallbackGo_first_min now rest b
      rw [h] at hdec hstrict hmin
      exact ⟨pre, post, hdec, hstrict, hmin⟩

/-- A shift of the example premise on day 99 at 22:00–23:00: its allowed
window ends at 00:00 of day 100. -/
def yesterdayShift : Shift := ⟨1, 1, 99, 1320, 1380, "", none, none⟩

/-- A shift of the example premise on day 100 at 20:00–22:00. -/
def todayShift : Shift := ⟨2, 1, 100, 1200, 1320, "", none, none⟩

/-- The premise's shift table for the resolver counterexample. -/
def exResolveDb : List Shift := [todayShift, yesterdayShift]

/-- A 09:00–10:00 shift of the example premise on day 100. -/
def morningShift : Shift := ⟨3, 1, 100, 540, 600, "", none, none⟩

/-- A 15:15–16:15 shift of the example premise on day 100. -/
def afternoonShift : Shift := ⟨4, 1, 100, 915, 975, "", none, none⟩

/-- A second premise shift table for the fallback-metric scenario. -/
def exResolveDb2 : List Shift := [morningShift, afternoonShift]

/-- C9 counterexample, two scenarios.  First: at 00:30 of day 100 neither
candidate's window contains `now`, a shift on today's date (day 100)
exists, yet the resolver falls back to the chronologically nearer shift of
day 99 — there is no today-first fallback step.  Second: at 12:00 of day
100, between a 09:00–10:00 and a 15:15–16:15 shift (neither window
containing `now`), the resolver returns the 09:00 shift, nearest by shift
start (180 vs 195 minutes), although the 15:15 shift is nearest by
window-start proximity (180 vs 195 on that metric) — the fallback metric is
the shift start, not the claim's window start. -/
theorem resolver_fallback_ignores_today :
    resolve_shift_from_premise exResolveDb exPremise 144030 15 60 1 =
      some yesterdayShift
    ∧ Int.fdiv 144030 1440 = 100
    ∧ yesterdayShift.date = 99
    ∧ todayShift ∈ exResolveDb
    ∧ todayShift.premiseId = exPremise.id
    ∧ todayShift.date = 100
    ∧ windowContains yesterdayShift 144030 15 60 = false
    ∧ windowContains todayShift 144030 15 60 = false
    ∧ resolve_shift_from_premise exResolveDb2 exPremise 144720 15 60 1 =
        some morningShift
    ∧ Int.fdiv 144720 1440 = 100
    ∧ windowContains morningShift 144720 15 60 = false
    ∧ windowContains afternoonShift 144720 15 60 = false
    ∧ startDiff morningShift 144720 = 180
    ∧ startDiff afternoonShift 144720 = 195
    ∧ |(resolverWindow afternoonShift 15 60).1 - 144720| = 180
    ∧ |(resolverWindow morningShift 15 60).1 - 144720| = 195 := by
  decide

/-- Witness for C9's amended theorem, at the concrete fallback scenario. -/
theorem resolver_characterization_witness :
    (∃ pre post,
        searchList exResolveDb exPremise.id (Int.fdiv 144030 1440) 1 =
          pre ++ yesterdayShift :: post
        ∧ windowContains yesterdayShift 144030 15 60 = true
        ∧ ∀ t ∈ pre, windowContains t 144030 15 60 = false)
    ∨ ((∀ t ∈ searchList exResolveDb exPremise.id (Int.fdiv 144030 1440) 1,
          windowContains t 144030 15 60 = false)
        ∧ ∃ pre post,
            searchList exResolveDb exPremise.id (Int.fdiv 144030 1440) 1 =
              pre ++ yesterdayShift :: post
            ∧ (∀ t ∈ pre, startDiff yesterdayShift 144030 < startDiff t 144030)
            ∧ ∀ t ∈ searchList exResolveDb exPremise.id (Int.fdiv 144030 1440) 1,
                startDiff yesterdayShift 144030 ≤ startDiff t 144030) :=
  resolver_characterization exResolveDb exPremise 144030 15 60 1 yesterdayShift
    (by decide)

end GuardSched
